import Mathlib

/-!
Verification of the bevy_cosmic_edit core (crates/bevy_cosmic_edit/src/lib.rs)
against its natural-language specification.

The Rust functions are shallowly embedded: `u8`/`u32` values become `Nat`
(no intermediate in `draw_pixel` can overflow 32 bits, see the bound lemmas),
`i32` coordinates become `Int`, `f32` geometry values become `ℚ` with the
`as i32` cast modelled as truncation toward zero, the pixel buffer becomes
a `List Nat` of bytes, and the per-frame ECS systems become explicit state
transformers.
-/

namespace Velo

/-- Byte offset of pixel (x, y): `(y as usize * width as usize + x as usize) * 4`
(lib.rs line 522). -/
def pixOffset (width x y : Int) : Nat :=
  (y.toNat * width.toNat + x.toNat) * 4

/-- Reconstruction of the packed 32-bit destination value from the four stored
bytes (lib.rs lines 524-527):
`buffer[o+2] | buffer[o+1] << 8 | buffer[o] << 16 | buffer[o+3] << 24`. -/
def readPixel (buffer : List Nat) (offset : Nat) : Nat :=
  buffer.getD (offset + 2) 0 |||
    (buffer.getD (offset + 1) 0) <<< 8 |||
    (buffer.getD offset 0) <<< 16 |||
    (buffer.getD (offset + 3) 0) <<< 24

/-- Unpacking of a packed 32-bit value back into the four stored bytes, in the
order the source writes them (lib.rs lines 541-544). -/
def writePixel (buffer : List Nat) (offset : Nat) (current : Nat) : List Nat :=
  (((buffer.set (offset + 2) (current % 256)).set
      (offset + 1) ((current >>> 8) % 256)).set
      offset ((current >>> 16) % 256)).set
      (offset + 3) ((current >>> 24) % 256)

/-- `draw_pixel` (lib.rs lines 498-545). All `u32` arithmetic is modelled on
`Nat`: each intermediate of the blend is bounded by `255 * 0x010000FF < 2^32`,
so `Nat` arithmetic agrees with Rust `u32` arithmetic here. -/
def draw_pixel (buffer : List Nat) (width height x y : Int) (color : Nat) :
    List Nat :=
  let alpha := (color >>> 24) &&& 0xFF
  if alpha = 0 then buffer
  else if y < 0 ∨ height ≤ y then buffer
  else if x < 0 ∨ width ≤ x then buffer
  else
    let offset := pixOffset width x y
    let current := readPixel buffer offset
    let current2 :=
      if 255 ≤ alpha ∨ current = 0 then color
      else
        let n_alpha := 255 - alpha
        let rb := ((n_alpha * (current &&& 0x00FF00FF)) +
            (alpha * (color &&& 0x00FF00FF))) >>> 8
        let ag := (n_alpha * ((current &&& 0xFF00FF00) >>> 8)) +
            (alpha * (0x01000000 ||| ((color &&& 0x0000FF00) >>> 8)))
        (rb &&& 0x00FF00FF) ||| (ag &&& 0xFF00FF00)
    writePixel buffer offset current2

/-! ### Coordinate mapper: alignment offsets -/

/-- Truncation of a rational toward zero: the semantics of Rust's `as i32`
cast from an in-range `f32` value. -/
def truncQ (q : ℚ) : ℤ := if q < 0 then -⌊-q⌋ else ⌊q⌋

/-- One buffer line as the coordinate mapper sees it: its text and, when the
line has been shaped, the widths `layout_line.w` of its layout lines
(`line.layout_opt()`); `f32` widths are modelled as `ℚ`. -/
structure BufferLine where
  text : List Char
  layout_opt : Option (List ℚ)

/-- The buffer state read by `get_y_offset` and `get_x_offset`: the metrics
line height, `visible_lines()`, the lines, and the buffer pixel size
`(size().0, size().1)`. -/
structure BufferModel where
  line_height : ℚ
  visible_lines : ℤ
  lines : List BufferLine
  size_w : ℚ
  size_h : ℚ

/-- `get_y_offset` (lib.rs lines 225-232): text height is
`line_height * min(visible_lines, lines.len() as i32) as f32`, and the offset
is `((size().1 - text_height) / 2.0) as i32`. -/
def get_y_offset (b : BufferModel) : ℤ :=
  let text_height := b.line_height * ((min b.visible_lines (b.lines.length : ℤ) : ℤ) : ℚ)
  truncQ ((b.size_h - text_height) / 2)

/-- The fold of `get_x_offset` (lib.rs lines 235-244): the running maximum of
`layout_line.w` over all layout lines of all shaped lines, starting at 0,
updated when `layout_line.w > max_line_width`. -/
def max_line_width (b : BufferModel) : ℚ :=
  b.lines.foldl (fun m line =>
    match line.layout_opt with
    | some ws => ws.foldl (fun m w => if m < w then w else m) m
    | none => m) 0

/-- `get_x_offset` (lib.rs lines 234-248): the offset is
`((size().0 - min(max_line_width as i32, size().0 as i32) as f32) / 2.0) as i32`;
note both the maximal width and the surface width are truncated to `i32`
before the `min`. -/
def get_x_offset (b : BufferModel) : ℤ :=
  truncQ ((b.size_w - ((min (truncQ (max_line_width b)) (truncQ b.size_w) : ℤ) : ℚ)) / 2)

/-- The horizontal-offset formula exactly as the specification words it:
`(surface_width − min(max_line_width, surface_width)) / 2`, without the
truncation of the shaped width to `i32` that the source performs. Written for
comparison against `get_x_offset`. -/
def spec_x_offset (b : BufferModel) : ℤ :=
  truncQ ((b.size_w - min (max_line_width b) b.size_w) / 2)

/-- A 200×100 surface with one shaped line of width 50 and line height 20
(5 visible lines): the specification's worked centering example. -/
def exampleCenterBuffer : BufferModel :=
  { line_height := 20, visible_lines := 5,
    lines := [{ text := ['a'], layout_opt := some [50] }],
    size_w := 200, size_h := 100 }

/-- A 200×100 surface identical to `exampleCenterBuffer` except the shaped
line is 50.5 wide: the buffer on which the specification's horizontal-offset
formula disagrees with the source's, because the source truncates the shaped
width to `i32` before taking the `min`. -/
def fractionalWidthBuffer : BufferModel :=
  { line_height := 20, visible_lines := 5,
    lines := [{ text := ['a'], layout_opt := some [101 / 2] }],
    size_w := 200, size_h := 100 }

/-! ### Buffer text: get_cosmic_text and set_text -/

/-- The enumerated push loop of `get_cosmic_text` (lib.rs lines 214-220):
index `i` walks the lines, appending each line's text followed by a newline
whenever `i < line_count - 1`. -/
def gctLoop (line_count i : Nat) (ls : List (List Char)) (text : List Char) :
    List Char :=
  match ls with
  | [] => text
  | line :: rest =>
      gctLoop line_count (i + 1) rest
        (text ++ line ++ (if i < line_count - 1 then ['\n'] else []))

/-- `get_cosmic_text` (lib.rs lines 210-223) on the buffer's lines, with each
line's text modelled as a list of characters. -/
def get_cosmic_text (lines : List (List Char)) : List Char :=
  gctLoop lines.length 0 lines []

/-- Modelled from the spec: the shaping library's `Buffer::set_text` (called
by `spawn_cosmic_edit`, lib.rs line 460) is not part of this repository; per
the spec it "replaces all lines" with the given content, so the buffer's
lines become the content split at newline characters. -/
def set_text (content : List Char) : List (List Char) :=
  content.splitOn '\n'

/-! ### Focus / active-editor transition -/

/-- A text cursor: line index, byte index within the line, and wrap
affinity (`true` for `Affinity::Before`). -/
structure Cursor where
  line : Nat
  index : Nat
  affinityBefore : Bool
deriving DecidableEq

/-- The per-editor state touched by the focus transition: the buffer's lines,
the cursor, the optional selection, and the redraw flag. -/
structure EditorState where
  lines : List (List Char)
  cursor : Cursor
  select_opt : Option Cursor
  redraw : Bool
deriving DecidableEq

/-- Modelled from the spec: the shaping library's `Action::BufferEnd` "moves
its Cursor to the end of the buffer" — the last line, at that line's end. -/
def bufferEndCursor (lines : List (List Char)) : Cursor :=
  { line := lines.length - 1, index := (lines.getLastD []).length,
    affinityBefore := false }

/-- The focus transition body (lib.rs lines 166-168): clear the selection,
move the cursor to the end of the buffer, set the redraw flag. -/
def focusTransition (s : EditorState) : EditorState :=
  { s with select_opt := none, cursor := bufferEndCursor s.lines, redraw := true }

/-- The state the focus pass operates on: the ActiveEditor resource, the
`Local` previously-recorded identity, and the editors indexed by entity id. -/
structure FocusWorld where
  active : Option Nat
  previous : Option Nat
  editors : Nat → Option EditorState

/-- `active_editor_changed` (lib.rs lines 156-173). `is_changed` is the
change-detection flag of the ActiveEditor resource; the transition body runs
when the resource changed and its identity differs from the recorded one and
the identity resolves to an editor; the recorded identity is updated whenever
the outer condition holds. -/
def active_editor_changed (is_changed : Bool) (w : FocusWorld) : FocusWorld :=
  if is_changed ∧ w.active ≠ w.previous then
    match w.active with
    | some e =>
      match w.editors e with
      | some ed =>
        { w with
          editors := fun j => if j = e then some (focusTransition ed) else w.editors j,
          previous := w.active }
      | none => { w with previous := w.active }
    | none => { w with previous := w.active }
  else w

/-- The ActiveEditor write (if any) the host performs this frame, before the
focus pass runs. Bevy change detection marks the resource changed exactly
when it was written. -/
def focusApplyWrite (w : FocusWorld) (write : Option (Option Nat)) : FocusWorld :=
  match write with
  | some a => { w with active := a }
  | none => w

/-- One frame of the focus pass: the host's optional write followed by
`active_editor_changed`. -/
def focusFrame (w : FocusWorld) (write : Option (Option Nat)) : FocusWorld :=
  active_editor_changed write.isSome (focusApplyWrite w write)

/-- Whether the transition body (clear selection / cursor to end / redraw)
runs this frame for some editor. -/
def focusFired (w : FocusWorld) (write : Option (Option Nat)) : Bool :=
  let w2 := focusApplyWrite w write
  write.isSome && decide (w2.active ≠ w2.previous) &&
    (match w2.active with
     | some e => (w2.editors e).isSome
     | none => false)

/-- A run of focus frames counting how often the transition body fired. -/
def runFocusCount (w : FocusWorld) (writes : List (Option (Option Nat))) :
    Nat × FocusWorld :=
  writes.foldl
    (fun p wr => (p.1 + (if focusFired p.2 wr then 1 else 0), focusFrame p.2 wr))
    (0, w)

/-- The world before any frame: no active editor, no recorded identity. -/
def initialFocusWorld (editors : Nat → Option EditorState) : FocusWorld :=
  { active := none, previous := none, editors := editors }

/-! ### Scale-factor transition -/

/-- The per-editor state touched by `scale_factor_changed`: the spawn-time
base font size and line height stored on the component, the buffer's current
metrics and pixel size, the redraw flag, and the layout node's size. -/
structure ScaleEditor where
  font_size : ℚ
  font_line_height : ℚ
  metrics_font_size : ℚ
  metrics_line_height : ℚ
  buf_w : ℚ
  buf_h : ℚ
  redraw : Bool
  node_w : ℚ
  node_h : ℚ

/-- The loop body of `scale_factor_changed` (lib.rs lines 138-152) for one
editor: metrics become `Metrics::new(font_size, font_line_height).scale(s)` —
modelled from the spec as the base metrics multiplied by the factor — the
buffer size becomes the node size times the factor, and redraw is set. -/
def scaleUpdate (s : ℚ) (e : ScaleEditor) : ScaleEditor :=
  { e with
    metrics_font_size := e.font_size * s,
    metrics_line_height := e.font_line_height * s,
    buf_w := e.node_w * s,
    buf_h := e.node_h * s,
    redraw := true }

/-- `scale_factor_changed` (lib.rs lines 128-154): when at least one
scale-factor-changed event arrived this frame, every editor is updated with
the window's scale factor; otherwise nothing happens. -/
def scale_factor_changed (factor_changed : Bool) (scale_factor : ℚ)
    (editors : List ScaleEditor) : List ScaleEditor :=
  if factor_changed then editors.map (scaleUpdate scale_factor) else editors

/-! ### Edit action dispatcher -/

/-- The key state the dispatcher reads from `Res<Input<KeyCode>>`:
just-pressed (`jp`), just-released (`jr`) and held (`pr`) flags for exactly
the keys the source queries. -/
structure KeyInput where
  jp_left : Bool
  jp_right : Bool
  jp_up : Bool
  jp_down : Bool
  jp_back : Bool
  jr_back : Bool
  jp_delete : Bool
  jp_return : Bool
  jp_escape : Bool
  jp_a : Bool
  pr_rwin : Bool
  pr_lwin : Bool
  pr_lalt : Bool
  pr_ralt : Bool
deriving DecidableEq

/-- The primary-button state the dispatcher reads from
`Res<Input<MouseButton>>`. -/
structure MouseInput where
  jp_left : Bool
  pr_left : Bool
deriving DecidableEq

/-- `CosmicTextPos` (lib.rs lines 27-30). -/
inductive CosmicTextPos where
  | Center
  | TopLeft
deriving DecidableEq

/-- The primary window as the dispatcher sees it. -/
structure WindowModel where
  height : ℚ
  scale_factor : ℚ
  cursor_position : Option (ℚ × ℚ)

/-- The editor node's global translation and layout size. -/
structure NodeModel where
  translation_x : ℚ
  translation_y : ℚ
  size_x : ℚ
  size_y : ℚ

/-- `get_node_cursor_pos` (lib.rs lines 175-191): hit-test of the window
cursor against the node's rectangle, returning node-local coordinates. -/
def get_node_cursor_pos (window : WindowModel) (node : NodeModel) :
    Option (ℚ × ℚ) :=
  let x_min := node.translation_x - node.size_x / 2
  let y_min := window.height - node.translation_y - node.size_y / 2
  let x_max := x_min + node.size_x
  let y_max := y_min + node.size_y
  match window.cursor_position with
  | some pos =>
      if x_min < pos.1 ∧ pos.1 < x_max ∧ y_min < pos.2 ∧ pos.2 < y_max then
        some (pos.1 - x_min, y_max - pos.2)
      else none
  | none => none

/-- The editor operations the dispatcher issues: the `Action` values passed
to `editor.action`, plus the `set_select_opt` call, recorded as a trace. -/
inductive EdAction where
  | left
  | right
  | up
  | down
  | backspace
  | delete
  | insert (c : Char)
  | escape
  | bufferEnd
  | setSelect (c : Option Cursor)
  | previousWord
  | nextWord
  | click (x y : ℤ)
  | drag (x y : ℤ)
deriving DecidableEq

/-- The active editor's component as the dispatcher reads it: the alignment
mode and the buffer geometry consulted for the `Center` offsets. -/
structure CosmicEditModel where
  text_pos : CosmicTextPos
  buffer : BufferModel

/-- The actions issued by the straight-line key segment before the Return
check (lib.rs lines 269-292): the four arrow keys, the wasm-guarded immediate
Backspace (lib.rs lines 283-284), and Delete. -/
def keyTrace (wasm32 : Bool) (keys : KeyInput) : List EdAction :=
  (if keys.jp_left then [EdAction.left] else []) ++
  (if keys.jp_right then [EdAction.right] else []) ++
  (if keys.jp_up then [EdAction.up] else []) ++
  (if keys.jp_down then [EdAction.down] else []) ++
  (if keys.jp_back && wasm32 then [EdAction.backspace] else []) ++
  (if keys.jp_delete then [EdAction.delete] else [])

/-- The `is_deleting` local after the Backspace press/release checks
(lib.rs lines 281-289): set on just-pressed, cleared on just-released. -/
def isDeletingNext (keys : KeyInput) (is_deleting : Bool) : Bool :=
  if keys.jr_back then false else if keys.jp_back then true else is_deleting

/-- `keyTrace` extended by the Escape action, which the source checks after
the Return early-return (lib.rs lines 299-301). -/
def keyTraceEsc (wasm32 : Bool) (keys : KeyInput) : List EdAction :=
  keyTrace wasm32 keys ++ (if keys.jp_escape then [EdAction.escape] else [])

/-- The `(offset_y, offset_x)` pair of the dispatcher (lib.rs lines 322-328). -/
def dispatchOffsets (ed : CosmicEditModel) : ℤ × ℤ :=
  match ed.text_pos with
  | CosmicTextPos.Center => (get_y_offset ed.buffer, get_x_offset ed.buffer)
  | CosmicTextPos.TopLeft => ((0 : ℤ), (0 : ℤ))

/-- The pointer-press branch body (lib.rs lines 329-341): a Click action at
the hit position scaled and shifted by the offsets, when the hit-test
succeeds; nothing otherwise. -/
def clickAction (window : WindowModel) (node : NodeModel)
    (ed : CosmicEditModel) : List EdAction :=
  match get_node_cursor_pos window node with
  | some p =>
      [EdAction.click
        (truncQ (p.1 * window.scale_factor) - (dispatchOffsets ed).2)
        (truncQ (p.2 * window.scale_factor) - (dispatchOffsets ed).1)]
  | none => []

/-- The pointer-held branch body (lib.rs lines 343-355): a Drag action at the
hit position, when the hit-test succeeds; nothing otherwise. -/
def dragAction (window : WindowModel) (node : NodeModel)
    (ed : CosmicEditModel) : List EdAction :=
  match get_node_cursor_pos window node with
  | some p =>
      [EdAction.drag
        (truncQ (p.1 * window.scale_factor) - (dispatchOffsets ed).2)
        (truncQ (p.2 * window.scale_factor) - (dispatchOffsets ed).1)]
  | none => []

/-- The body of `cosmic_edit_bevy_events` (lib.rs lines 250-367) for the
active editor, as the trace of issued editor operations plus the updated
`is_deleting` local. `wasm32` is the `cfg(target_arch = "wasm32")` build
flag. The source's early `return` statements become the non-final branches
of the if-chain; everything issued before each return is in the branch's
trace. -/
def cosmic_edit_bevy_events (wasm32 : Bool) (window : WindowModel)
    (keys : KeyInput) (buttons : MouseInput) (chars : List Char)
    (node : NodeModel) (ed : CosmicEditModel) (is_deleting : Bool) :
    List EdAction × Bool :=
  let command := keys.pr_rwin || keys.pr_lwin
  let option := keys.pr_lalt || keys.pr_ralt
  let isDel2 := isDeletingNext keys is_deleting
  if keys.jp_return then
    (keyTrace wasm32 keys ++ [EdAction.insert '\n'], isDel2)
  else if command && keys.jp_a then
    (keyTraceEsc wasm32 keys ++ [EdAction.bufferEnd,
      EdAction.setSelect (some { line := 0, index := 0, affinityBefore := true })],
      isDel2)
  else if command && option && keys.jp_left then
    (keyTraceEsc wasm32 keys ++ [EdAction.previousWord], isDel2)
  else if command && option && keys.jp_right then
    (keyTraceEsc wasm32 keys ++ [EdAction.nextWord], isDel2)
  else if buttons.jp_left then
    (keyTraceEsc wasm32 keys ++ clickAction window node ed, isDel2)
  else if buttons.pr_left then
    (keyTraceEsc wasm32 keys ++ dragAction window node ed, isDel2)
  else
    (keyTraceEsc wasm32 keys ++ chars.map
      (fun c => if isDel2 then EdAction.backspace else EdAction.insert c),
      isDel2)

/-- Modelled from the spec: the effect of the shaping library's
`Action::Backspace` on the buffer text — "delete the character before the
cursor"; at a line start the line is joined to the previous one. -/
def backspaceText (lines : List (List Char)) (cursor : Cursor) :
    List (List Char) × Cursor :=
  match lines.get? cursor.line with
  | none => (lines, cursor)
  | some l =>
      if 0 < cursor.index then
        (lines.set cursor.line
          (l.take (cursor.index - 1) ++ l.drop cursor.index),
          { cursor with index := cursor.index - 1 })
      else
        match cursor.line with
        | 0 => (lines, cursor)
        | prev + 1 =>
            ((lines.take prev) ++
              [lines.getD prev [] ++ l] ++ lines.drop (cursor.line + 1),
              { line := prev, index := (lines.getD prev []).length,
                affinityBefore := cursor.affinityBefore })

/-- A key-input record with every flag clear. -/
def noKeys : KeyInput :=
  { jp_left := false, jp_right := false, jp_up := false, jp_down := false,
    jp_back := false, jr_back := false, jp_delete := false, jp_return := false,
    jp_escape := false, jp_a := false, pr_rwin := false, pr_lwin := false,
    pr_lalt := false, pr_ralt := false }

/-- Key input for the frame on which only Backspace is pressed. -/
def keysBackOnly : KeyInput := { noKeys with jp_back := true }

/-- A mouse record with the primary button untouched. -/
def noMouse : MouseInput := { jp_left := false, pr_left := false }

/-- A window with no cursor position. -/
def plainWindow : WindowModel :=
  { height := 100, scale_factor := 1, cursor_position := none }

/-- A 10×10 node at the origin. -/
def plainNode : NodeModel :=
  { translation_x := 0, translation_y := 0, size_x := 10, size_y := 10 }

/-- A one-line unshaped buffer containing "ab" on a 10×10 surface. -/
def plainBuffer : BufferModel :=
  { line_height := 20, visible_lines := 5,
    lines := [{ text := ['a', 'b'], layout_opt := none }],
    size_w := 10, size_h := 10 }

/-- A top-left aligned editor over `plainBuffer`. -/
def plainEditor : CosmicEditModel :=
  { text_pos := CosmicTextPos.TopLeft, buffer := plainBuffer }

/-- A mouse record with the primary button just pressed. -/
def mouseDown : MouseInput := { jp_left := true, pr_left := false }

/-- A sample editor state with a stale selection and the cursor away from
the end. -/
def sampleEditorState : EditorState :=
  { lines := [['a', 'b'], ['c']],
    cursor := { line := 0, index := 0, affinityBefore := false },
    select_opt := some { line := 0, index := 1, affinityBefore := false },
    redraw := false }

/-- A world holding `sampleEditorState` as editor 0, before any frame. -/
def sampleFocusWorld : FocusWorld :=
  initialFocusWorld (fun j => if j = 0 then some sampleEditorState else none)

/-! ### Theorems about draw_pixel -/

/-- Bytes of `writePixel` at the four written indices, provided they are in
range. Shared helper for the compositor theorems. -/
theorem writePixel_bytes (buffer : List Nat) (offset v : Nat)
    (h : offset + 3 < buffer.length) :
    (writePixel buffer offset v).getD offset 0 = (v >>> 16) % 256 ∧
    (writePixel buffer offset v).getD (offset + 1) 0 = (v >>> 8) % 256 ∧
    (writePixel buffer offset v).getD (offset + 2) 0 = v % 256 ∧
    (writePixel buffer offset v).getD (offset + 3) 0 = (v >>> 24) % 256 := by
  have h0 : offset < buffer.length := by omega
  have h1 : offset + 1 < buffer.length := by omega
  have h2 : offset + 2 < buffer.length := by omega
  unfold writePixel
  refine ⟨?_, ?_, ?_, ?_⟩ <;>
    simp [List.getD_eq_getElem?_getD, List.getElem?_set, List.length_set,
      h0, h1, h2, h]

/-- C1: for in-bounds coordinates, nonzero reconstructed destination `D`, and
source alpha byte `a` with `1 ≤ a ≤ 254`, `draw_pixel` stores the packed value
`(rb &&& 0x00FF00FF) ||| (ag &&& 0xFF00FF00)` with
`rb = (((255-a) * (D &&& 0x00FF00FF)) + (a * (C &&& 0x00FF00FF))) >>> 8` and
`ag = (255-a) * ((D &&& 0xFF00FF00) >>> 8) + a * (0x01000000 ||| ((C &&& 0x0000FF00) >>> 8))`,
bit-for-bit: the red/blue lane is blended with a shift by 8 and the alpha/green
lane ORs in a full-opacity marker with no division-by-255 normalization. -/
theorem draw_pixel_blend_formula (buffer : List Nat) (width height x y : Int)
    (color : Nat)
    (hx0 : 0 ≤ x) (hxw : x < width) (hy0 : 0 ≤ y) (hyh : y < height)
    (ha1 : 1 ≤ (color >>> 24) &&& 0xFF) (ha2 : (color >>> 24) &&& 0xFF ≤ 254)
    (hD : readPixel buffer (pixOffset width x y) ≠ 0) :
    draw_pixel buffer width height x y color =
      writePixel buffer (pixOffset width x y)
        ((((((255 - ((color >>> 24) &&& 0xFF)) *
                (readPixel buffer (pixOffset width x y) &&& 0x00FF00FF)) +
              (((color >>> 24) &&& 0xFF) * (color &&& 0x00FF00FF))) >>> 8) &&&
            0x00FF00FF) |||
          ((((255 - ((color >>> 24) &&& 0xFF)) *
                ((readPixel buffer (pixOffset width x y) &&& 0xFF00FF00) >>> 8)) +
              (((color >>> 24) &&& 0xFF) *
                (0x01000000 ||| ((color &&& 0x0000FF00) >>> 8)))) &&&
            0xFF00FF00)) := by
  simp only [draw_pixel]
  rw [if_neg (by omega), if_neg (by omega), if_neg (by omega), if_neg ?hc]
  case hc =>
    rintro (h | h)
    · omega
    · exact hD h

/-- Witness for C1 at width = height = 1, x = y = 0,
buffer = [0,0,1,0] (so D = 1 ≠ 0), color = 0x80415263 (alpha byte 0x80). -/
theorem draw_pixel_blend_formula_witness :
    draw_pixel [0, 0, 1, 0] 1 1 0 0 0x80415263 =
      writePixel [0, 0, 1, 0] (pixOffset 1 0 0)
        ((((((255 - ((0x80415263 >>> 24) &&& 0xFF)) *
                (readPixel [0, 0, 1, 0] (pixOffset 1 0 0) &&& 0x00FF00FF)) +
              (((0x80415263 >>> 24) &&& 0xFF) * (0x80415263 &&& 0x00FF00FF))) >>> 8) &&&
            0x00FF00FF) |||
          ((((255 - ((0x80415263 >>> 24) &&& 0xFF)) *
                ((readPixel [0, 0, 1, 0] (pixOffset 1 0 0) &&& 0xFF00FF00) >>> 8)) +
              (((0x80415263 >>> 24) &&& 0xFF) *
                (0x01000000 ||| ((0x80415263 &&& 0x0000FF00) >>> 8)))) &&&
            0xFF00FF00)) :=
  draw_pixel_blend_formula [0, 0, 1, 0] 1 1 0 0 0x80415263
    (by decide) (by decide) (by decide) (by decide) (by decide) (by decide)
    (by decide)

/-- C2: for in-bounds coordinates, if the source alpha byte is 255, or the
reconstructed destination is 0 while the source alpha byte is nonzero, then
`draw_pixel` stores exactly the source color's (R,G,B,A) byte decomposition
with no blending. -/
theorem draw_pixel_replace_exact (buffer : List Nat) (width height x y : Int)
    (color : Nat)
    (hx0 : 0 ≤ x) (hxw : x < width) (hy0 : 0 ≤ y) (hyh : y < height)
    (hlen : buffer.length = width.toNat * height.toNat * 4)
    (hcase : (color >>> 24) &&& 0xFF = 255 ∨
      (readPixel buffer (pixOffset width x y) = 0 ∧ 1 ≤ (color >>> 24) &&& 0xFF)) :
    (draw_pixel buffer width height x y color).getD (pixOffset width x y) 0 =
        (color >>> 16) % 256 ∧
    (draw_pixel buffer width height x y color).getD (pixOffset width x y + 1) 0 =
        (color >>> 8) % 256 ∧
    (draw_pixel buffer width height x y color).getD (pixOffset width x y + 2) 0 =
        color % 256 ∧
    (draw_pixel buffer width height x y color).getD (pixOffset width x y + 3) 0 =
        (color >>> 24) % 256 := by
  have hoff : pixOffset width x y + 3 < buffer.length := by
    have hx : x.toNat + 1 ≤ width.toNat := by omega
    have hy : y.toNat + 1 ≤ height.toNat := by omega
    have h1 : y.toNat * width.toNat + x.toNat + 1 ≤ width.toNat * height.toNat := by
      calc y.toNat * width.toNat + x.toNat + 1
          ≤ y.toNat * width.toNat + width.toNat := by omega
        _ = (y.toNat + 1) * width.toNat := by ring
        _ ≤ height.toNat * width.toNat := Nat.mul_le_mul_right _ hy
        _ = width.toNat * height.toNat := Nat.mul_comm _ _
    have h2 : (y.toNat * width.toNat + x.toNat + 1) * 4 ≤
        width.toNat * height.toNat * 4 := Nat.mul_le_mul_right _ h1
    unfold pixOffset
    omega
  have hred : draw_pixel buffer width height x y color =
      writePixel buffer (pixOffset width x y) color := by
    simp only [draw_pixel]
    rcases hcase with h255 | ⟨hD, ha⟩
    · rw [if_neg (by omega), if_neg (by omega), if_neg (by omega),
        if_pos (Or.inl (by omega))]
    · rw [if_neg (by omega), if_neg (by omega), if_neg (by omega),
        if_pos (Or.inr hD)]
  rw [hred]
  exact writePixel_bytes buffer (pixOffset width x y) color hoff

/-- Witness for C2 at width = height = 1, x = y = 0, buffer = [9,9,9,9],
color = 0xFF010203 (alpha byte 255): stored bytes are R=1, G=2, B=3, A=255. -/
theorem draw_pixel_replace_exact_witness :
    (draw_pixel [9, 9, 9, 9] 1 1 0 0 0xFF010203).getD (pixOffset 1 0 0) 0 =
        (0xFF010203 >>> 16) % 256 ∧
    (draw_pixel [9, 9, 9, 9] 1 1 0 0 0xFF010203).getD (pixOffset 1 0 0 + 1) 0 =
        (0xFF010203 >>> 8) % 256 ∧
    (draw_pixel [9, 9, 9, 9] 1 1 0 0 0xFF010203).getD (pixOffset 1 0 0 + 2) 0 =
        0xFF010203 % 256 ∧
    (draw_pixel [9, 9, 9, 9] 1 1 0 0 0xFF010203).getD (pixOffset 1 0 0 + 3) 0 =
        (0xFF010203 >>> 24) % 256 :=
  draw_pixel_replace_exact [9, 9, 9, 9] 1 1 0 0 0xFF010203
    (by decide) (by decide) (by decide) (by decide) (by decide)
    (Or.inl (by decide))

/-- C3: a source color whose alpha byte is 0 leaves the pixel buffer
byte-identical. -/
theorem draw_pixel_alpha_zero_noop (buffer : List Nat) (width height x y : Int)
    (color : Nat) (h : (color >>> 24) &&& 0xFF = 0) :
    draw_pixel buffer width height x y color = buffer := by
  simp [draw_pixel, h]

/-- Witness for C3 at color = 0x00FF8040 (alpha byte 0). -/
theorem draw_pixel_alpha_zero_noop_witness :
    draw_pixel [1, 2, 3, 4] 1 1 0 0 0x00FF8040 = [1, 2, 3, 4] :=
  draw_pixel_alpha_zero_noop [1, 2, 3, 4] 1 1 0 0 0x00FF8040 (by decide)

/-- C4: (clip) a coordinate outside `[0,width) × [0,height)` leaves the buffer
byte-identical; (safety) for an in-bounds coordinate and a buffer of length
`width*height*4`, all four byte indices accessed lie within the buffer. -/
theorem draw_pixel_clip_and_inbounds :
    (∀ (buffer : List Nat) (width height x y : Int) (color : Nat),
      (x < 0 ∨ width ≤ x ∨ y < 0 ∨ height ≤ y) →
      draw_pixel buffer width height x y color = buffer) ∧
    (∀ (buffer : List Nat) (width height x y : Int),
      0 ≤ x → x < width → 0 ≤ y → y < height →
      buffer.length = width.toNat * height.toNat * 4 →
      pixOffset width x y < buffer.length ∧
      pixOffset width x y + 1 < buffer.length ∧
      pixOffset width x y + 2 < buffer.length ∧
      pixOffset width x y + 3 < buffer.length) := by
  constructor
  · intro buffer width height x y color h
    simp only [draw_pixel]
    split
    · rfl
    · split
      · rfl
      · split
        · rfl
        · exfalso; omega
  · intro buffer width height x y hx0 hxw hy0 hyh hlen
    have hx : x.toNat + 1 ≤ width.toNat := by omega
    have hy : y.toNat + 1 ≤ height.toNat := by omega
    have h1 : y.toNat * width.toNat + x.toNat + 1 ≤ width.toNat * height.toNat := by
      calc y.toNat * width.toNat + x.toNat + 1
          ≤ y.toNat * width.toNat + width.toNat := by omega
        _ = (y.toNat + 1) * width.toNat := by ring
        _ ≤ height.toNat * width.toNat := Nat.mul_le_mul_right _ hy
        _ = width.toNat * height.toNat := Nat.mul_comm _ _
    have h2 : (y.toNat * width.toNat + x.toNat + 1) * 4 ≤
        width.toNat * height.toNat * 4 := Nat.mul_le_mul_right _ h1
    unfold pixOffset
    omega

/-- Witness for C4: clip at (2,0) on a 1×1 buffer, and in-bounds indices at
(0,0) on a 1×1 buffer of length 4. -/
theorem draw_pixel_clip_and_inbounds_witness :
    draw_pixel [7, 7, 7, 7] 1 1 2 0 0xFF000000 = [7, 7, 7, 7] ∧
    pixOffset 1 0 0 + 3 < ([7, 7, 7, 7] : List Nat).length :=
  ⟨draw_pixel_clip_and_inbounds.1 [7, 7, 7, 7] 1 1 2 0 0xFF000000
      (Or.inr (Or.inl (by decide))),
    (draw_pixel_clip_and_inbounds.2 [7, 7, 7, 7] 1 1 0 0
      (by decide) (by decide) (by decide) (by decide) (by decide)).2.2.2⟩

/-! ### Theorems about the centering offsets -/

/-- C8 counterexample: on a 200×100 surface whose single shaped line is 50.5
wide, the source computes the horizontal offset 75 (it truncates the width to
50 before the `min`), while the claimed formula
`(surface_width − min(max_line_width, surface_width)) / 2` yields 74. -/
theorem get_x_offset_spec_formula_false :
    get_x_offset fractionalWidthBuffer = 75 ∧
    spec_x_offset fractionalWidthBuffer = 74 := by
  constructor <;>
    norm_num [get_x_offset, spec_x_offset, max_line_width, fractionalWidthBuffer,
      truncQ]

/-- C8 (amended): for every editor buffer the vertical offset equals
`trunc((size_h − line_height · min(visible_lines, line_count)) / 2)` as the
claim states, while the horizontal offset equals
`trunc((size_w − min(trunc(max_line_width), trunc(size_w))) / 2)` — the
maximal shaped width and the surface width are truncated to `i32` before the
`min`, unlike the claimed formula; on a 200×100 surface with one line of
shaped width 50 and line height 20 the offsets are 40 and 75. -/
theorem center_offsets (b : BufferModel) :
    get_y_offset b =
      truncQ ((b.size_h -
        b.line_height * ((min b.visible_lines (b.lines.length : ℤ) : ℤ) : ℚ)) / 2) ∧
    get_x_offset b =
      truncQ ((b.size_w -
        ((min (truncQ (max_line_width b)) (truncQ b.size_w) : ℤ) : ℚ)) / 2) ∧
    get_y_offset exampleCenterBuffer = 40 ∧
    get_x_offset exampleCenterBuffer = 75 := by
  refine ⟨rfl, rfl, ?_, ?_⟩ <;>
    norm_num [get_y_offset, get_x_offset, max_line_width, exampleCenterBuffer,
      truncQ]

/-! ### Theorems about the buffer text -/

/-- Unfolding of `List.intercalate` on a list of at least two lines. -/
theorem intercalate_cons_cons (s a b : List Char) (t : List (List Char)) :
    List.intercalate s (a :: b :: t) = a ++ s ++ List.intercalate s (b :: t) := by
  simp [List.intercalate, List.intersperse_cons_cons]

/-- The `get_cosmic_text` loop appends exactly the lines interleaved with
single newlines, for any starting accumulator, provided the counter is
consistent with the number of remaining lines. -/
theorem gctLoop_eq_intercalate (ls : List (List Char)) :
    ∀ (n i : Nat) (acc : List Char), i + ls.length = n →
      gctLoop n i ls acc = acc ++ List.intercalate ['\n'] ls := by
  induction ls with
  | nil =>
    intro n i acc h
    simp [gctLoop, List.intercalate]
  | cons l rest ih =>
    intro n i acc h
    cases rest with
    | nil =>
      have hge : ¬(i < n - 1) := by
        simp only [List.length_cons, List.length_nil] at h
        omega
      simp [gctLoop, hge, List.intercalate]
    | cons l2 t =>
      have hlt : i < n - 1 := by
        simp only [List.length_cons] at h
        omega
      have hrec := ih n (i + 1) (acc ++ l ++ ['\n'])
        (by simp only [List.length_cons] at h ⊢; omega)
      rw [gctLoop, if_pos hlt, hrec, intercalate_cons_cons]
      simp

/-- `get_cosmic_text` returns exactly the buffer's lines, in order, joined by
a single newline with no trailing newline. -/
theorem get_cosmic_text_eq_intercalate (ls : List (List Char)) :
    get_cosmic_text ls = List.intercalate ['\n'] ls := by
  simpa [get_cosmic_text] using
    gctLoop_eq_intercalate ls ls.length 0 [] (by simp)

/-- C9: setting the buffer's text to lines joined with a newline and reading
it back through `get_cosmic_text` returns the same joined string, and in
general `get_cosmic_text` is exactly the newline-join of the buffer's lines
with no trailing newline. (The lines must be newline-free and nonempty for
the round trip, matching the buffer invariant of at least one line.) -/
theorem set_text_get_cosmic_text_roundtrip (lines : List (List Char))
    (hne : lines ≠ []) (hnl : ∀ l ∈ lines, '\n' ∉ l) :
    get_cosmic_text (set_text (List.intercalate ['\n'] lines)) =
        List.intercalate ['\n'] lines ∧
    ∀ ls : List (List Char), get_cosmic_text ls = List.intercalate ['\n'] ls := by
  refine ⟨?_, get_cosmic_text_eq_intercalate⟩
  rw [set_text, List.splitOn_intercalate lines '\n' hnl hne,
    get_cosmic_text_eq_intercalate]

/-- Witness for C9 on the two lines "a" and "bc". -/
theorem set_text_get_cosmic_text_roundtrip_witness :
    get_cosmic_text (set_text (List.intercalate ['\n'] [['a'], ['b', 'c']])) =
      List.intercalate ['\n'] [['a'], ['b', 'c']] :=
  (set_text_get_cosmic_text_roundtrip [['a'], ['b', 'c']]
    (by decide) (by decide)).1

/-! ### Theorems about the scale-factor transition -/

/-- C7: on a frame where a scale-factor-changed notification arrived, every
editor (by index, not only the active one) has its stored metrics set to the
base font size and line height times the factor, its buffer pixel size set to
the node layout size times the factor, and its redraw flag set; in
particular, factor 2 versus factor 1 doubles both metrics and pixel size. -/
theorem scale_factor_updates_every_editor :
    (∀ (editors : List ScaleEditor) (s : ℚ) (i : Nat),
      (scale_factor_changed true s editors).get? i =
        (editors.get? i).map (scaleUpdate s)) ∧
    (∀ (s : ℚ) (e : ScaleEditor),
      (scaleUpdate s e).metrics_font_size = e.font_size * s ∧
      (scaleUpdate s e).metrics_line_height = e.font_line_height * s ∧
      (scaleUpdate s e).buf_w = e.node_w * s ∧
      (scaleUpdate s e).buf_h = e.node_h * s ∧
      (scaleUpdate s e).redraw = true) ∧
    (∀ e : ScaleEditor,
      (scaleUpdate 2 e).metrics_font_size =
        2 * (scaleUpdate 1 e).metrics_font_size ∧
      (scaleUpdate 2 e).metrics_line_height =
        2 * (scaleUpdate 1 e).metrics_line_height ∧
      (scaleUpdate 2 e).buf_w = 2 * (scaleUpdate 1 e).buf_w ∧
      (scaleUpdate 2 e).buf_h = 2 * (scaleUpdate 1 e).buf_h) := by
  refine ⟨?_, ?_, ?_⟩
  · intro editors s i
    simp [scale_factor_changed]
  · intro s e
    exact ⟨rfl, rfl, rfl, rfl, rfl⟩
  · intro e
    refine ⟨?_, ?_, ?_, ?_⟩ <;> simp [scaleUpdate] <;> ring

/-! ### Theorems about the focus transition -/

/-- After any focus frame, the recorded identity agrees with the resource's
identity, provided they agreed at the start of the frame. Worlds reachable
from `initialFocusWorld` therefore always satisfy this agreement between
frames. -/
theorem focusFrame_active_eq_previous (w : FocusWorld)
    (write : Option (Option Nat)) (hw : w.active = w.previous) :
    (focusFrame w write).active = (focusFrame w write).previous := by
  cases write with
  | none =>
      simpa [focusFrame, focusApplyWrite, active_editor_changed] using hw
  | some a =>
      by_cases h : a = w.previous
      · simp [focusFrame, focusApplyWrite, active_editor_changed, h]
      · simp only [focusFrame, focusApplyWrite, active_editor_changed]
        rw [if_pos ⟨rfl, h⟩]
        cases a with
        | none => rfl
        | some e =>
            cases he : w.editors e <;> simp [he]

/-- C6: (i) if the transition fired this frame then the frame's ActiveEditor
identity differs from the recorded one; (ii) conversely, starting from agreeing
identities, a write of a differing identity that resolves to an editor fires
the transition, which clears that editor's selection, moves its cursor to the
buffer end, sets its redraw flag, and records the identity; (iii) whenever the
frame's identity equals the recorded one, no editor state changes; (iv) from
the initial world, activating editor 0 and then re-confirming it twice fires
the transition exactly once. -/
theorem active_editor_transition :
    (∀ (w : FocusWorld) (write : Option (Option Nat)),
      focusFired w write = true →
        (focusApplyWrite w write).active ≠ w.previous) ∧
    (∀ (w : FocusWorld) (write : Option (Option Nat)) (e : Nat) (ed : EditorState),
      w.active = w.previous →
      write = some (some e) →
      some e ≠ w.previous →
      w.editors e = some ed →
        focusFired w write = true ∧
        (focusFrame w write).editors e = some (focusTransition ed) ∧
        (focusFrame w write).previous = some e) ∧
    (∀ (w : FocusWorld) (write : Option (Option Nat)),
      (focusApplyWrite w write).active = w.previous →
        (focusFrame w write).editors = w.editors) ∧
    (∀ ed : EditorState,
      (runFocusCount (initialFocusWorld (fun j => if j = 0 then some ed else none))
        [some (some 0), some (some 0), some (some 0)]).1 = 1) := by
  refine ⟨?_, ?_, ?_, ?_⟩
  · intro w write hf
    simp only [focusFired, Bool.and_eq_true, decide_eq_true_eq] at hf
    have hprev : (focusApplyWrite w write).previous = w.previous := by
      cases write <;> rfl
    rw [← hprev]
    exact hf.1.2
  · intro w write e ed hw hwr hne hed
    subst hwr
    refine ⟨?_, ?_, ?_⟩
    · simp [focusFired, focusApplyWrite, hne, hed]
    · simp only [focusFrame, focusApplyWrite, active_editor_changed]
      rw [if_pos ⟨rfl, hne⟩]
      simp [hed]
    · simp only [focusFrame, focusApplyWrite, active_editor_changed]
      rw [if_pos ⟨rfl, hne⟩]
      simp [hed]
  · intro w write hw
    cases write with
    | none => simp [focusFrame, focusApplyWrite, active_editor_changed, hw] at hw ⊢
    | some a =>
        simp only [focusApplyWrite] at hw
        simp [focusFrame, focusApplyWrite, active_editor_changed, hw]
  · intro ed
    simp [runFocusCount, focusFrame, focusFired, focusApplyWrite,
      active_editor_changed, initialFocusWorld]

/-- Witness for C6 applying the fire-and-transition direction to
`sampleFocusWorld`: activating editor 0 clears its selection, moves the
cursor to the end of the last line and sets redraw. -/
theorem active_editor_transition_witness :
    focusFired sampleFocusWorld (some (some 0)) = true ∧
    (focusFrame sampleFocusWorld (some (some 0))).editors 0 =
      some (focusTransition sampleEditorState) ∧
    (focusFrame sampleFocusWorld (some (some 0))).previous = some 0 :=
  active_editor_transition.2.1 sampleFocusWorld (some (some 0)) 0
    sampleEditorState rfl rfl (by decide) rfl

/-! ### Theorems about the edit action dispatcher -/

/-- Membership in a conditional singleton trace segment. -/
theorem mem_ite_singleton {α : Type} (p : Prop) [Decidable p] (x a : α) :
    (x ∈ if p then [a] else []) ↔ p ∧ x = a := by
  by_cases h : p <;> simp [h]

/-- The `is_deleting` update as a Boolean law. -/
theorem isDel_eq (jr jp d : Bool) :
    (if jr then false else if jp then true else d) = (!jr && (jp || d)) := by
  cases jr <;> cases jp <;> cases d <;> rfl

/-- On a frame pressing Backspace, the wasm-guarded immediate action is in
the key segment's trace. -/
theorem backspace_mem_keyTrace (keys : KeyInput) (h : keys.jp_back = true) :
    EdAction.backspace ∈ keyTrace true keys := by
  simp [keyTrace, h]

/-- No insertion ever appears in the pre-character key segment. -/
theorem insert_not_mem_keyTraceEsc (wasm32 : Bool) (keys : KeyInput) (c : Char) :
    EdAction.insert c ∉ keyTraceEsc wasm32 keys := by
  simp [keyTraceEsc, keyTrace, mem_ite_singleton]

/-- The dispatcher's resulting `is_deleting` local, on every control path:
false when Backspace was just released, else true when it was just pressed,
else the previous value. -/
theorem cosmic_edit_bevy_events_snd (wasm32 : Bool) (window : WindowModel)
    (keys : KeyInput) (buttons : MouseInput) (chars : List Char)
    (node : NodeModel) (ed : CosmicEditModel) (is_deleting : Bool) :
    (cosmic_edit_bevy_events wasm32 window keys buttons chars node ed
        is_deleting).2 =
      (!keys.jr_back && (keys.jp_back || is_deleting)) := by
  simp only [cosmic_edit_bevy_events]
  split_ifs <;> simp [isDeletingNext, isDel_eq]

/-- C5 counterexample: on a non-wasm build, the frame that presses Backspace
(with no character events that frame) issues no editor action at all — the
trace is empty, so no character is deleted by the press itself; the
dispatcher only enters continuous-delete mode. -/
theorem backspace_press_deletes_nothing_on_native :
    cosmic_edit_bevy_events false plainWindow keysBackOnly noMouse []
        plainNode plainEditor false = ([], true) := rfl

/-- C5 (amended): (i) after any dispatch, continuous-delete mode is active
exactly when Backspace was not just released and was either just pressed or
the mode was already active — the press enters the mode and it persists until
release; (ii) on wasm builds, the press itself issues the Backspace deletion;
(iii) when no Return/command-combo/pointer input consumes the frame, the
frame's character events each append exactly one action: a deletion whenever
the mode is active (no insertion ever appears in the trace), so held-Backspace
character events delete instead of insert; (iv) the spec-modelled effect of
the issued Backspace action deletes the character before the cursor. -/
theorem continuous_delete_mode (wasm32 : Bool) (window : WindowModel)
    (keys : KeyInput) (buttons : MouseInput) (chars : List Char)
    (node : NodeModel) (ed : CosmicEditModel) (is_deleting : Bool) :
    ((cosmic_edit_bevy_events wasm32 window keys buttons chars node ed
        is_deleting).2 =
      (!keys.jr_back && (keys.jp_back || is_deleting))) ∧
    (keys.jp_back = true →
      EdAction.backspace ∈
        (cosmic_edit_bevy_events true window keys buttons chars node ed
          is_deleting).1) ∧
    (keys.jp_return = false →
      ((keys.pr_rwin || keys.pr_lwin) && keys.jp_a) = false →
      ((keys.pr_rwin || keys.pr_lwin) && (keys.pr_lalt || keys.pr_ralt) &&
          keys.jp_left) = false →
      ((keys.pr_rwin || keys.pr_lwin) && (keys.pr_lalt || keys.pr_ralt) &&
          keys.jp_right) = false →
      buttons.jp_left = false → buttons.pr_left = false →
      keys.jr_back = false →
      (keys.jp_back = true ∨ is_deleting = true) →
        (cosmic_edit_bevy_events wasm32 window keys buttons chars node ed
            is_deleting).1 =
          (cosmic_edit_bevy_events wasm32 window keys buttons [] node ed
            is_deleting).1 ++
            List.map (fun _ => EdAction.backspace) chars ∧
        ∀ c : Char, EdAction.insert c ∉
          (cosmic_edit_bevy_events wasm32 window keys buttons chars node ed
            is_deleting).1) ∧
    backspaceText [['a', 'b']] { line := 0, index := 2, affinityBefore := false } =
      ([['a']], { line := 0, index := 1, affinityBefore := false }) := by
  refine ⟨cosmic_edit_bevy_events_snd wasm32 window keys buttons chars node ed
    is_deleting, ?_, ?_, by decide⟩
  · intro hjp
    have hmem := backspace_mem_keyTrace keys hjp
    simp only [cosmic_edit_bevy_events]
    split_ifs <;> simp [keyTraceEsc, hmem]
  · intro hret hca hwl hwr hbjp hbpr hjr hmode
    have hdel : isDeletingNext keys is_deleting = true := by
      rcases hmode with hb | hd
      · simp [isDeletingNext, hjr, hb]
      · simp [isDeletingNext, hjr, hd, ite_self]
    constructor
    · simp [cosmic_edit_bevy_events, hret, hca, hwl, hwr, hbjp, hbpr, hdel]
    · intro c
      simp [cosmic_edit_bevy_events, hret, hca, hwl, hwr, hbjp, hbpr, hdel,
        insert_not_mem_keyTraceEsc]

/-- Witness for C5 on the frame that presses Backspace while "x" and "y"
character events arrive: both become deletions. -/
theorem continuous_delete_mode_witness :
    (cosmic_edit_bevy_events false plainWindow keysBackOnly noMouse ['x', 'y']
        plainNode plainEditor false).1 =
      (cosmic_edit_bevy_events false plainWindow keysBackOnly noMouse []
        plainNode plainEditor false).1 ++
        List.map (fun _ => EdAction.backspace) ['x', 'y'] :=
  ((continuous_delete_mode false plainWindow keysBackOnly noMouse ['x', 'y']
      plainNode plainEditor false).2.2.1 rfl rfl rfl rfl rfl rfl rfl
      (Or.inl rfl)).1

/-- C10: while the primary button is just-pressed or held, the dispatcher's
result does not depend on the frame's character events (the pointer branch
returns unconditionally, so the character loop is never reached); and when
the hit-test additionally misses, the frame is equivalent to one with the
pointer untouched and no character events — no click, drag, insertion or
deletion happens. -/
theorem pointer_consumes_chars (wasm32 : Bool) (window : WindowModel)
    (keys : KeyInput) (buttons : MouseInput) (chars : List Char)
    (node : NodeModel) (ed : CosmicEditModel) (is_deleting : Bool)
    (hm : buttons.jp_left = true ∨ buttons.pr_left = true) :
    cosmic_edit_bevy_events wasm32 window keys buttons chars node ed
        is_deleting =
      cosmic_edit_bevy_events wasm32 window keys buttons [] node ed
        is_deleting ∧
    (get_node_cursor_pos window node = none →
      cosmic_edit_bevy_events wasm32 window keys buttons chars node ed
          is_deleting =
        cosmic_edit_bevy_events wasm32 window keys noMouse [] node ed
          is_deleting) := by
  constructor
  · simp only [cosmic_edit_bevy_events]
    split_ifs <;> first | rfl | (exfalso; rcases hm with h | h <;> simp_all)
  · intro hmiss
    simp only [cosmic_edit_bevy_events, noMouse]
    split_ifs <;> first | rfl | simp_all [clickAction, dragAction]

/-- Witness for C10: primary button just pressed with the pointer outside the
window (hit-test misses), an "x" character event arriving. -/
theorem pointer_consumes_chars_witness :
    cosmic_edit_bevy_events false plainWindow noKeys mouseDown ['x']
        plainNode plainEditor false =
      cosmic_edit_bevy_events false plainWindow noKeys mouseDown []
        plainNode plainEditor false :=
  (pointer_consumes_chars false plainWindow noKeys mouseDown ['x'] plainNode
    plainEditor false (Or.inl rfl)).1

end Velo
